import Mathlib

/-!
Shallow embedding of the BirthdayBot core (`src/main.rs`).

The program stores birthday entries in a single JSON file and runs an hourly
loop that announces birthdays.  We embed the pure content of the relevant
functions: `chrono` date handling (`NaiveDate::from_ymd_opt`, subtraction of a
`Duration` from a `NaiveDate`), `args_to_date`, the read-mutate-write content
of `append_birthday` and `set_announcement_channel`, the panic/backup
behaviour of `read_from_file`, the per-entry body of the
`check_for_announcements` loop, and the next-birthday computation of
`get_birthday`.  Machine integers (`usize`, `u32`, `i32`) are modelled as
`Nat`/`Int` with the wrapping casts made explicit; Rust integer division
(truncation toward zero) is `Int.tdiv`.
-/

namespace BirthdayBot

/-- A calendar date, the model of `chrono::NaiveDate`. -/
structure Date where
  year : Int
  month : Nat
  day : Nat
deriving DecidableEq

/-- Proleptic-Gregorian leap-year test, as used by `chrono`. -/
def isLeapYear (y : Int) : Bool :=
  y % 4 == 0 && (y % 100 != 0 || y % 400 == 0)

/-- Length of month `m` in year `y` (`0` for a month index outside `1..=12`). -/
def daysInMonth (m : Nat) (y : Int) : Nat :=
  match m with
  | 1 => 31
  | 2 => if isLeapYear y then 29 else 28
  | 3 => 31
  | 4 => 30
  | 5 => 31
  | 6 => 30
  | 7 => 31
  | 8 => 31
  | 9 => 30
  | 10 => 31
  | 11 => 30
  | 12 => 31
  | _ => 0

/-- Smallest year representable by `chrono::NaiveDate`. -/
def minYear : Int := -262144

/-- Largest year representable by `chrono::NaiveDate`. -/
def maxYear : Int := 262143

/-- `chrono::NaiveDate::from_ymd_opt`: `some` exactly on real calendar dates
    within the representable year range. -/
def fromYmdOpt (y : Int) (m d : Nat) : Option Date :=
  if minYear ≤ y ∧ y ≤ maxYear ∧ 1 ≤ m ∧ m ≤ 12 ∧ 1 ≤ d ∧ d ≤ daysInMonth m y
  then some ⟨y, m, d⟩ else none

/-- Day count of a civil date since 1970-01-01 (proleptic Gregorian). -/
def daysFromCivil (y : Int) (m d : Nat) : Int :=
  let yAdj : Int := if m ≤ 2 then y - 1 else y
  let era : Int := Int.fdiv yAdj 400
  let yoe : Nat := (yAdj - era * 400).toNat
  let mp : Nat := if 2 < m then m - 3 else m + 9
  let doy : Nat := (153 * mp + 2) / 5 + d - 1
  let doe : Nat := yoe * 365 + yoe / 4 - yoe / 100 + doy
  era * 146097 + (doe : Int) - 719468

/-- Civil date of a day count since 1970-01-01 (inverse of `daysFromCivil`). -/
def civilFromDays (z0 : Int) : Date :=
  let z : Int := z0 + 719468
  let era : Int := Int.fdiv z 146097
  let doe : Nat := (z - era * 146097).toNat
  let yoe : Nat := (doe - doe / 1460 + doe / 36524 - doe / 146096) / 365
  let y : Int := (yoe : Int) + era * 400
  let doy : Nat := doe - (365 * yoe + yoe / 4 - yoe / 100)
  let mp : Nat := (5 * doy + 2) / 153
  let d : Nat := doy - (153 * mp + 2) / 5 + 1
  let m : Nat := if mp < 10 then mp + 3 else mp - 9
  ⟨if m ≤ 2 then y + 1 else y, m, d⟩

/-- Day number of a `Date`. -/
def toDayNumber (d : Date) : Int := daysFromCivil d.year d.month d.day

/-- Calendar arithmetic: the date `n` days after `d`. -/
def addDays (d : Date) (n : Int) : Date := civilFromDays (toDayNumber d + n)

/-- `chrono::Duration::hours(h)`: the duration as a count of seconds. -/
def durationHoursSecs (h : Int) : Int := h * 3600

/-- `chrono::Duration::num_days`: whole days contained in a duration of
    `secs` seconds, truncated toward zero (Rust integer division). -/
def durationNumDays (secs : Int) : Int := Int.tdiv secs 86400

/-- `NaiveDate - Duration::hours(h)`: `chrono` subtracts only `num_days` of
    the duration from a `NaiveDate`, discarding the fractional day. -/
def dateSubHours (d : Date) (h : Int) : Date :=
  addDays d (-(durationNumDays (durationHoursSecs h)))

/-- Chronological strict order on dates (`chrono`'s `Ord` on `NaiveDate`). -/
def dateLt (a b : Date) : Bool :=
  a.year < b.year ||
    (a.year == b.year &&
      (a.month < b.month || (a.month == b.month && a.day < b.day)))

/-- The value of a `usize` argument after `as u32`. -/
def toU32 (n : Nat) : Nat := n % 4294967296

/-- The value of a `usize` argument after `as i32`. -/
def toI32 (n : Nat) : Int :=
  let r := n % 4294967296
  if r < 2147483648 then (r : Int) else (r : Int) - 4294967296

/-- `args_to_date(day, month, year)`:
    `NaiveDate::from_ymd_opt(year.unwrap_or(2024) as i32, month as u32, day as u32)`,
    with `none` modelling the `Err("Invalid date!")` branch. -/
def args_to_date (day month : Nat) (year : Option Nat) : Option Date :=
  fromYmdOpt (toI32 (year.getD 2024)) (toU32 month) (toU32 day)

/-- One stored birthday entry (struct `BirthdayEntry`); identifiers are
    modelled as `Nat`. -/
structure BirthdayEntry where
  user_id : Nat
  guild_id : Nat
  name : String
  date : Date
  last_announcement : Option Date
  utc_offset : Int
deriving DecidableEq

/-- The durable document (struct `BirthdayList`): all entries plus the
    guild-to-announcement-channel `HashMap`, modelled as an association
    list with unique keys maintained by `insertChannel`. -/
structure BirthdayList where
  entries : List BirthdayEntry
  server_channels : List (Nat × Nat)
deriving DecidableEq

/-- `BirthdayList::default()`: the empty document. -/
def emptyList : BirthdayList := ⟨[], []⟩

/-- `HashMap::get` on the channel map. -/
def getChannel (channels : List (Nat × Nat)) (guild : Nat) : Option Nat :=
  (channels.find? (fun p => p.1 == guild)).map Prod.snd

/-- `HashMap::insert` on the channel map: replaces an existing binding. -/
def insertChannel (channels : List (Nat × Nat)) (guild ch : Nat) :
    List (Nat × Nat) :=
  if channels.any (fun p => p.1 == guild) then
    channels.map (fun p => if p.1 == guild then (guild, ch) else p)
  else channels ++ [(guild, ch)]

/-- What one call of `read_from_file` finds on disk:
    `fs::read_to_string` either succeeds — and then `serde_json::from_str`
    yields `some` parsed document or `none` on a deserialization failure —
    or fails with an I/O error. -/
inductive DiskRead
  | ok (parsed : Option BirthdayList)
  | ioError
deriving DecidableEq

/-- Observable outcome of `read_from_file`: `outcome = some b` is a normal
    return of `b`, `outcome = none` is a `panic!` (the task aborts);
    `backupWritten` records whether `birthdays.json.bak` was written. -/
structure ReadResult where
  outcome : Option BirthdayList
  backupWritten : Bool
deriving DecidableEq

/-- `read_from_file`: on a successful disk read, a deserialization failure is
    silently replaced by the empty document (`unwrap_or_default`) with no
    backup; on an I/O error the file is copied to `birthdays.json.bak` and
    the function panics. -/
def read_from_file (r : DiskRead) : ReadResult :=
  match r with
  | .ok parsed => ⟨some (parsed.getD emptyList), false⟩
  | .ioError => ⟨none, true⟩

/-- The read-mutate-write content of `append_birthday`: drop every entry for
    this user in this specific guild (`retain`), then push the new entry with
    `last_announcement: None`; `none` models the early return on
    `args_to_date`'s error. -/
def append_birthday (b : BirthdayList) (user_id guild_id : Nat) (name : String)
    (day month : Nat) (year : Option Nat) (utc_offset : Int) :
    Option BirthdayList :=
  match args_to_date day month year with
  | none => none
  | some date =>
    let kept :=
      b.entries.filter
        (fun e => (e.user_id != user_id) || (e.guild_id != guild_id))
    some { b with entries := kept ++ [⟨user_id, guild_id, name, date, none, utc_offset⟩] }

/-- The mutation performed by `set_announcement_channel`. -/
def set_announcement_channel (b : BirthdayList) (guild ch : Nat) :
    BirthdayList :=
  { b with server_channels := insertChannel b.server_channels guild ch }

/-- One announcement effect: the `channel.say` call with the happy-birthday
    message for `name`. -/
structure Effect where
  channel : Nat
  name : String
deriving DecidableEq

/-- The due test of the `check_for_announcements` loop for one entry:
    `entry.date - Duration::hours(entry.utc_offset)` has today's month and
    day, and the entry was not yet announced in today's year. -/
def isDue (e : BirthdayEntry) (today : Date) : Bool :=
  let offsetEntry := dateSubHours e.date e.utc_offset
  offsetEntry.month == today.month && offsetEntry.day == today.day &&
    (match e.last_announcement with
     | none => true
     | some la => la.year != today.year)

/-- The body of the per-entry loop in `check_for_announcements`: if the entry
    is due, emit the announcement when the guild has a registered channel and
    set `last_announcement = Some(today)` either way; otherwise leave the
    entry alone. -/
def sweepEntry (channels : List (Nat × Nat)) (today : Date)
    (e : BirthdayEntry) : Option Effect × BirthdayEntry :=
  if isDue e today then
    (match getChannel channels e.guild_id with
     | some ch => some ⟨ch, e.name⟩
     | none => none,
     { e with last_announcement := some today })
  else (none, e)

/-- One full sweep over the in-memory document: every entry is processed by
    `sweepEntry`; the channel map is not modified by a sweep. -/
def sweep (b : BirthdayList) (today : Date) : List Effect × BirthdayList :=
  let results := b.entries.map (sweepEntry b.server_channels today)
  (results.filterMap Prod.fst, { b with entries := results.map Prod.snd })

/-- Repeated sweeping of a single entry on a sequence of days (the entry's
    fate across several ticks; the store sweep acts entrywise). -/
def sweepEntryMany (channels : List (Nat × Nat)) (days : List Date)
    (e : BirthdayEntry) : List Effect × BirthdayEntry :=
  match days with
  | [] => ([], e)
  | t :: ts =>
    let r := sweepEntry channels t e
    let rest := sweepEntryMany channels ts r.2
    (r.1.toList ++ rest.1, rest.2)

/-- The next-birthday computation of `get_birthday`: rebuild the stored
    month/day in today's year, move to next year if that day already passed;
    both `from_ymd_opt` results are `.unwrap()`ed in the source, so `none`
    models a panic. -/
def next_birthday (entryDate : Date) (today : Date) : Option Date :=
  match fromYmdOpt today.year entryDate.month entryDate.day with
  | none => none
  | some thisYear =>
    let year := if dateLt thisYear today then today.year + 1 else today.year
    fromYmdOpt year entryDate.month entryDate.day

/-- Largest length month `m` ever has over all years (how a day/month pair
    with no year can form a real calendar date). -/
def maxDaysInMonth (m : Nat) : Nat :=
  match m with
  | 1 => 31
  | 2 => 29
  | 3 => 31
  | 4 => 30
  | 5 => 31
  | 6 => 30
  | 7 => 31
  | 8 => 31
  | 9 => 30
  | 10 => 31
  | 11 => 30
  | 12 => 31
  | _ => 0

theorem daysInMonth_le_31 (m : Nat) (y : Int) : daysInMonth m y ≤ 31 := by
  unfold daysInMonth
  split <;> first | omega | (split <;> omega)

theorem daysInMonth_feb_le (y : Int) : daysInMonth 2 y ≤ 29 := by
  show (if isLeapYear y then 29 else 28) ≤ 29
  split <;> omega

theorem toU32_small {n : Nat} (h : n < 4294967296) : toU32 n = n :=
  Nat.mod_eq_of_lt h

/-- C2: what the code actually does on a bad store file.  A document that
    fails to deserialize is silently replaced by the empty store with no
    backup written and no condition reported; an unreadable file is backed
    up to the `.bak` path and then the function panics (aborts the task). -/
theorem c2_read_from_file_behaviour :
    read_from_file (.ok none) = ⟨some emptyList, false⟩ ∧
    read_from_file .ioError = ⟨none, true⟩ :=
  ⟨rfl, rfl⟩

/-- C6 counterexample: day 4294967301 = 2^32 + 5 lies far outside [1, 31],
    yet `args_to_date` accepts it: the `usize as u32` cast wraps it to 5 and
    the call returns June 5 of the placeholder year, so the claim's
    universal rejection of out-of-range days is false. -/
theorem c6_counterexample :
    args_to_date 4294967301 6 none = some ⟨2024, 6, 5⟩ := by
  decide

/-- C6 amended: `args_to_date` succeeds for every day/month pair that forms
    a real calendar date (the absent year is replaced by the placeholder
    2024).  Day and month are first reduced by the `usize as u32` wrap; the
    call rejects inputs whose reduced day or month falls outside
    [1,31]/[1,12], rejects calendar-invalid combinations of the reduced
    values with the effective year, and rejects day 30 of month 2 for every
    choice of year. -/
theorem c6_args_to_date (d m : Nat) (y : Option Nat)
    (hm1 : 1 ≤ m) (hm2 : m ≤ 12) :
    (1 ≤ d → d ≤ maxDaysInMonth m → (args_to_date d m none).isSome) ∧
    (∀ d0 m0 : Nat,
      (toU32 d0 < 1 ∨ 31 < toU32 d0 ∨ toU32 m0 < 1 ∨ 12 < toU32 m0) →
      args_to_date d0 m0 y = none) ∧
    (daysInMonth m (toI32 (y.getD 2024)) < toU32 d →
      args_to_date d m y = none) ∧
    (∀ y0 : Option Nat, args_to_date 30 2 y0 = none) := by
  refine ⟨?_, ?_, ?_, ?_⟩
  · intro hd1 hd2
    have hmax : maxDaysInMonth m = daysInMonth m (toI32 2024) := by
      interval_cases m <;> decide
    have hd31 : d < 4294967296 := by
      have := hd2
      rw [hmax] at this
      have h31 := daysInMonth_le_31 m (toI32 2024)
      omega
    rw [args_to_date]
    show (fromYmdOpt (toI32 2024) (toU32 m) (toU32 d)).isSome
    rw [toU32_small (by omega : m < 4294967296), toU32_small hd31]
    unfold fromYmdOpt
    rw [if_pos ⟨by decide, by decide, hm1, hm2, hd1, by rw [← hmax]; exact hd2⟩]
    rfl
  · intro d0 m0 hbad
    rw [args_to_date]
    unfold fromYmdOpt
    split
    · exfalso
      rename_i h
      have h31 := daysInMonth_le_31 (toU32 m0) (toI32 (y.getD 2024))
      omega
    · rfl
  · intro hinval
    rw [args_to_date, toU32_small (show m < 4294967296 by omega)]
    unfold fromYmdOpt
    split
    · exfalso
      rename_i h
      omega
    · rfl
  · intro y0
    rw [args_to_date]
    show fromYmdOpt (toI32 (y0.getD 2024)) (toU32 2) (toU32 30) = none
    rw [toU32_small (by omega), toU32_small (by omega)]
    unfold fromYmdOpt
    split
    · exfalso
      rename_i h
      have h29 := daysInMonth_feb_le (toI32 (y0.getD 2024))
      omega
    · rfl

/-- C6 witness: concrete instances of each conjunct of `c6_args_to_date`,
    including a wrapped month (2^32 + 13 reduces to 13, out of range). -/
theorem c6_args_to_date_witness :
    (args_to_date 15 6 none).isSome ∧
    args_to_date 45 6 (some 2023) = none ∧
    args_to_date 7 4294967309 (some 2023) = none ∧
    args_to_date 31 4 (some 2023) = none ∧
    args_to_date 30 2 (some 2000) = none := by
  have h := c6_args_to_date 31 4 (some 2023) (by decide) (by decide)
  refine ⟨?_, ?_, ?_, ?_, ?_⟩
  · exact (c6_args_to_date 15 6 none (by decide) (by decide)).1 (by decide) (by decide)
  · exact h.2.1 45 6 (by decide)
  · exact h.2.1 7 4294967309 (by decide)
  · exact h.2.2.1 (by decide)
  · exact h.2.2.2 (some 2000)

/-- C7: evidence for the code bug.  A Feb-29 birthday is storable via
    `args_to_date` (the placeholder year 2024 is a leap year), but the
    next-birthday computation of `get_birthday` evaluates
    `from_ymd_opt(2025, 2, 29)`, which is `None`, and the source unwraps it:
    the command panics instead of skipping to the next leap year 2028. -/
theorem c7_feb29_next_birthday_panics :
    args_to_date 29 2 none = some ⟨2024, 2, 29⟩ ∧
    next_birthday ⟨2024, 2, 29⟩ ⟨2025, 3, 1⟩ = none := by
  decide

theorem tdiv_hours_secs (h : Int) :
    Int.tdiv (h * 3600) 86400 = Int.tdiv h 24 := by
  have key : ∀ n : Nat, Int.tdiv ((n : Int) * 3600) 86400 = Int.tdiv (n : Int) 24 := by
    intro n
    have h1 : ((n : Int) * 3600) = ((n * 3600 : Nat) : Int) := by push_cast; ring
    rw [h1, show (86400 : Int) = ((86400 : Nat) : Int) from rfl,
      show (24 : Int) = ((24 : Nat) : Int) from rfl,
      ← Int.ofNat_tdiv, ← Int.ofNat_tdiv]
    congr 1
    rw [show (86400 : Nat) = 3600 * 24 from rfl, ← Nat.div_div_eq_div_mul,
      Nat.mul_div_cancel n (by norm_num)]
  rcases h with n | n
  · exact key n
  · have hns : (Int.negSucc n) = -((n + 1 : Nat) : Int) := rfl
    rw [hns, Int.neg_mul, Int.neg_tdiv, Int.neg_tdiv, key (n + 1)]

/-- The shift the code applies to a stored date: `utc_offset_hours` whole
    hours become `utc_offset_hours / 24` whole days, the division truncated
    toward zero, so any offset smaller than a full day does not move the
    date at all. -/
def effectiveLocalDayTrunc (d : Date) (h : Int) : Date :=
  addDays d (-(Int.tdiv h 24))

/-- Modelled from the spec wording of C3: `effective_local_day` shifts the
    stored date by `-utc_offset_hours` *hours* — the calendar date, in UTC
    terms, of the instant the owner's local calendar flips to that day
    (midnight of the stored day minus the offset, with the fractional day
    floored away). -/
def effective_local_day (d : Date) (h : Int) : Date :=
  addDays d (Int.fdiv (-h) 24)

/-- Modelled from the spec wording of C3: the due test stated with the
    hour-level `effective_local_day`. -/
def specDue (e : BirthdayEntry) (today : Date) : Bool :=
  (effective_local_day e.date e.utc_offset).month == today.month &&
  (effective_local_day e.date e.utc_offset).day == today.day &&
    (match e.last_announcement with
     | none => true
     | some la => la.year != today.year)

/-- C3 counterexample: for a UTC+1 owner with stored date 2024-06-15 and no
    previous announcement, the code finds the record due on UTC 2024-06-15
    (the hour offset is swallowed by the whole-day truncation), while the
    claim's hour-level effective local day is 2024-06-14, making the record
    not due that day under the claim's definition. -/
theorem c3_counterexample :
    isDue ⟨1, 5, "alice", ⟨2024, 6, 15⟩, none, 1⟩ ⟨2024, 6, 15⟩ = true ∧
    specDue ⟨1, 5, "alice", ⟨2024, 6, 15⟩, none, 1⟩ ⟨2024, 6, 15⟩ = false := by
  decide

/-- C3 amended: a record is due exactly when the month and day of its stored
    date shifted by `-(utc_offset_hours / 24)` whole days (truncation toward
    zero, as Rust division and `Duration::num_days` behave) equal the month
    and day of the current UTC date, and its `last_announcement` year is
    absent or differs from the current UTC year. -/
theorem c3_due_condition (e : BirthdayEntry) (today : Date) :
    isDue e today = true ↔
      ((effectiveLocalDayTrunc e.date e.utc_offset).month = today.month ∧
       (effectiveLocalDayTrunc e.date e.utc_offset).day = today.day ∧
       (∀ la, e.last_announcement = some la → la.year ≠ today.year)) := by
  have hsh : dateSubHours e.date e.utc_offset
      = effectiveLocalDayTrunc e.date e.utc_offset := by
    unfold dateSubHours effectiveLocalDayTrunc durationNumDays durationHoursSecs
    rw [tdiv_hours_secs]
  cases hla : e.last_announcement with
  | none => simp [isDue, hsh, hla]
  | some la => simp [isDue, hsh, hla, and_assoc]

theorem isDue_false_of_announced {e : BirthdayEntry} {la t : Date}
    (h1 : e.last_announcement = some la) (h2 : la.year = t.year) :
    isDue e t = false := by
  simp [isDue, h1, h2]

theorem sweepEntry_not_due {channels : List (Nat × Nat)} {t : Date}
    {e : BirthdayEntry} (h : isDue e t = false) :
    sweepEntry channels t e = (none, e) := by
  simp [sweepEntry, h]

/-- C4: a record last announced in year `Y` emits no announcement effect and
    is left unchanged by any sequence of sweeps whose UTC dates all lie in
    year `Y`; once today's year exceeds `Y` and the record's shifted
    month/day matches today again (with its community's channel registered),
    the sweep emits the announcement effect again. -/
theorem c4_at_most_once_per_year (channels : List (Nat × Nat))
    (e : BirthdayEntry) (la : Date) (days : List Date) (today : Date)
    (ch : Nat)
    (h1 : e.last_announcement = some la)
    (h2 : ∀ t ∈ days, t.year = la.year) :
    sweepEntryMany channels days e = ([], e) ∧
    (la.year < today.year →
      (dateSubHours e.date e.utc_offset).month = today.month →
      (dateSubHours e.date e.utc_offset).day = today.day →
      getChannel channels e.guild_id = some ch →
      (sweepEntry channels today e).1 = some ⟨ch, e.name⟩) := by
  constructor
  · induction days with
    | nil => rfl
    | cons t ts ih =>
      have hdue : isDue e t = false :=
        isDue_false_of_announced h1 (h2 t (by simp)).symm
      have hrest := ih (fun s hs => h2 s (by simp [hs]))
      simp [sweepEntryMany, sweepEntry_not_due hdue, hrest]
  · intro hy hm hd hch
    have hdue : isDue e today = true := by
      simp [isDue, hm, hd, h1]
      omega
    simp [sweepEntry, hdue, hch]

/-- C4 witness: a record announced on 2024-06-15 stays silent and unchanged
    through two further sweeps in 2024 (including one on its own day), and
    is announced again on 2025-06-15. -/
theorem c4_at_most_once_per_year_witness :
    sweepEntryMany [(5, 99)] [⟨2024, 8, 1⟩, ⟨2024, 6, 15⟩]
        ⟨1, 5, "alice", ⟨2024, 6, 15⟩, some ⟨2024, 6, 15⟩, 0⟩ =
      ([], ⟨1, 5, "alice", ⟨2024, 6, 15⟩, some ⟨2024, 6, 15⟩, 0⟩) ∧
    (sweepEntry [(5, 99)] ⟨2025, 6, 15⟩
        ⟨1, 5, "alice", ⟨2024, 6, 15⟩, some ⟨2024, 6, 15⟩, 0⟩).1 =
      some ⟨99, "alice"⟩ := by
  have h := c4_at_most_once_per_year [(5, 99)]
    ⟨1, 5, "alice", ⟨2024, 6, 15⟩, some ⟨2024, 6, 15⟩, 0⟩ ⟨2024, 6, 15⟩
    [⟨2024, 8, 1⟩, ⟨2024, 6, 15⟩] ⟨2025, 6, 15⟩ 99 rfl (by decide)
  exact ⟨h.1, h.2 (by decide) (by decide) (by decide) rfl⟩

/-- C8: a record that is due while its community has no registered channel
    emits no announcement effect, yet its `last_announcement` is still set to
    today (hence its recorded year is the current UTC year), exactly as if it
    had been announced. -/
theorem c8_due_without_target (channels : List (Nat × Nat)) (today : Date)
    (e : BirthdayEntry) (hdue : isDue e today = true)
    (hch : getChannel channels e.guild_id = none) :
    sweepEntry channels today e =
      (none, { e with last_announcement := some today }) := by
  simp [sweepEntry, hdue, hch]

/-- C8 witness: a due record in a guild with no registered channel. -/
theorem c8_due_without_target_witness :
    sweepEntry [] ⟨2024, 6, 15⟩ ⟨1, 5, "alice", ⟨2024, 6, 15⟩, none, 0⟩ =
      (none, ⟨1, 5, "alice", ⟨2024, 6, 15⟩, some ⟨2024, 6, 15⟩, 0⟩) :=
  c8_due_without_target [] ⟨2024, 6, 15⟩
    ⟨1, 5, "alice", ⟨2024, 6, 15⟩, none, 0⟩ (by decide) rfl

/-- C10: a successful upsert always stores the new record with
    `last_announcement = None`, even when it replaces a record already
    announced in the current year; consequently a sweep on a matching day
    within the same year finds the new record due and announces it again. -/
theorem c10_reupsert_resets_annual_guard
    (b b' : BirthdayList) (u g : Nat) (nm : String) (d m : Nat)
    (y : Option Nat) (off : Int) (today dt : Date) (ch : Nat)
    (e0 : BirthdayEntry) (la : Date)
    (hmem : e0 ∈ b.entries) (hu : e0.user_id = u) (hg : e0.guild_id = g)
    (hla : e0.last_announcement = some la) (hyr : la.year = today.year)
    (hdt : args_to_date d m y = some dt)
    (happ : append_birthday b u g nm d m y off = some b')
    (hm : (dateSubHours dt off).month = today.month)
    (hd : (dateSubHours dt off).day = today.day)
    (hch : getChannel b'.server_channels g = some ch) :
    b'.entries.getLast? = some ⟨u, g, nm, dt, none, off⟩ ∧
    sweepEntry b'.server_channels today ⟨u, g, nm, dt, none, off⟩ =
      (some ⟨ch, nm⟩, ⟨u, g, nm, dt, some today, off⟩) := by
  rw [append_birthday, hdt] at happ
  have hb' : b'.entries =
      b.entries.filter (fun e => (e.user_id != u) || (e.guild_id != g))
        ++ [⟨u, g, nm, dt, none, off⟩] := by
    cases happ
    rfl
  constructor
  · rw [hb', List.getLast?_concat]
  · have hdue : isDue ⟨u, g, nm, dt, none, off⟩ today = true := by
      simp [isDue, hm, hd]
    simp [sweepEntry, hdue, hch]

/-- C10 witness: the record of user 1 in guild 5 was announced on
    2024-06-15; re-upserting the same birthday and sweeping again on
    2024-06-15 announces it a second time that year. -/
theorem c10_reupsert_resets_annual_guard_witness :
    (BirthdayList.mk
        [⟨1, 5, "alice", ⟨2024, 6, 15⟩, none, 0⟩] [(5, 99)]).entries.getLast?
      = some ⟨1, 5, "alice", ⟨2024, 6, 15⟩, none, 0⟩ ∧
    sweepEntry [(5, 99)] ⟨2024, 6, 15⟩
        ⟨1, 5, "alice", ⟨2024, 6, 15⟩, none, 0⟩ =
      (some ⟨99, "alice"⟩, ⟨1, 5, "alice", ⟨2024, 6, 15⟩, some ⟨2024, 6, 15⟩, 0⟩) :=
  c10_reupsert_resets_annual_guard
    ⟨[⟨1, 5, "alice", ⟨2024, 6, 15⟩, some ⟨2024, 6, 15⟩, 0⟩], [(5, 99)]⟩
    ⟨[⟨1, 5, "alice", ⟨2024, 6, 15⟩, none, 0⟩], [(5, 99)]⟩
    1 5 "alice" 15 6 none 0 ⟨2024, 6, 15⟩ ⟨2024, 6, 15⟩ 99
    ⟨1, 5, "alice", ⟨2024, 6, 15⟩, some ⟨2024, 6, 15⟩, 0⟩ ⟨2024, 6, 15⟩
    (by decide) rfl rfl rfl rfl (by decide) (by decide)
    (by decide) (by decide) rfl

/-- Key distinctness: no two entries share a (user, guild) pair. -/
def uniqueKeys (l : List BirthdayEntry) : Prop :=
  l.Pairwise (fun a b => a.user_id ≠ b.user_id ∨ a.guild_id ≠ b.guild_id)

/-- Store states reachable through the program's mutations: first run or
    corruption reset (empty document), a successful upsert, a channel
    registration, and a scheduler sweep. -/
inductive Reachable : BirthdayList → Prop
  | init : Reachable emptyList
  | upsert {b b' : BirthdayList} (u g : Nat) (nm : String) (d m : Nat)
      (y : Option Nat) (off : Int) :
      Reachable b → append_birthday b u g nm d m y off = some b' →
      Reachable b'
  | setChannel {b : BirthdayList} (g ch : Nat) :
      Reachable b → Reachable (set_announcement_channel b g ch)
  | sweepStep {b : BirthdayList} (today : Date) :
      Reachable b → Reachable (sweep b today).2

theorem sweepEntry_snd_keys (channels : List (Nat × Nat)) (t : Date)
    (e : BirthdayEntry) :
    (sweepEntry channels t e).2.user_id = e.user_id ∧
    (sweepEntry channels t e).2.guild_id = e.guild_id := by
  unfold sweepEntry
  split <;> simp

theorem uniqueKeys_append_birthday {b b' : BirthdayList} {u g : Nat}
    {nm : String} {d m : Nat} {y : Option Nat} {off : Int}
    (h : append_birthday b u g nm d m y off = some b')
    (hb : uniqueKeys b.entries) : uniqueKeys b'.entries := by
  rw [append_birthday] at h
  cases hdt : args_to_date d m y with
  | none => rw [hdt] at h; cases h
  | some dt =>
    rw [hdt] at h
    injection h with h
    rw [← h]
    show uniqueKeys
      (b.entries.filter (fun e => (e.user_id != u) || (e.guild_id != g))
        ++ [⟨u, g, nm, dt, none, off⟩])
    rw [uniqueKeys, List.pairwise_append]
    refine ⟨List.Pairwise.sublist (List.filter_sublist _) hb,
      List.pairwise_singleton _ _, ?_⟩
    intro a ha x hx
    have hp := (List.mem_filter.mp ha).2
    simp only [List.mem_singleton] at hx
    subst hx
    simp only [Bool.or_eq_true, bne_iff_ne] at hp
    exact hp

theorem uniqueKeys_sweep (b : BirthdayList) (t : Date)
    (hb : uniqueKeys b.entries) : uniqueKeys (sweep b t).2.entries := by
  show uniqueKeys
    ((b.entries.map (sweepEntry b.server_channels t)).map Prod.snd)
  rw [List.map_map, uniqueKeys, List.pairwise_map]
  refine List.Pairwise.imp ?_ hb
  intro a c hac
  have ha := sweepEntry_snd_keys b.server_channels t a
  have hc := sweepEntry_snd_keys b.server_channels t c
  rcases hac with h | h
  · exact Or.inl (by simp only [Function.comp_apply, ha.1, hc.1]; exact h)
  · exact Or.inr (by simp only [Function.comp_apply, ha.2, hc.2]; exact h)

/-- C5: every reachable store state holds at most one record per
    (user, guild) pair, and a successful upsert leaves exactly one record
    for its pair — the fresh one, with `last_announcement = None` — while
    the records of every other pair (and the channel map) are untouched. -/
theorem c5_one_record_per_pair :
    (∀ b, Reachable b → uniqueKeys b.entries) ∧
    (∀ (b b' : BirthdayList) (u g : Nat) (nm : String) (d m : Nat)
        (y : Option Nat) (off : Int) (dt : Date),
      args_to_date d m y = some dt →
      append_birthday b u g nm d m y off = some b' →
      b'.entries.filter (fun e => e.user_id == u && e.guild_id == g)
          = [⟨u, g, nm, dt, none, off⟩] ∧
      b'.entries.filter (fun e => !(e.user_id == u && e.guild_id == g))
          = b.entries.filter (fun e => !(e.user_id == u && e.guild_id == g)) ∧
      b'.server_channels = b.server_channels) := by
  constructor
  · intro b hr
    induction hr with
    | init => exact List.Pairwise.nil
    | upsert u g nm d m y off hr happ ih =>
      exact uniqueKeys_append_birthday happ ih
    | setChannel g ch hr ih => exact ih
    | sweepStep today hr ih => exact uniqueKeys_sweep _ _ ih
  · intro b b' u g nm d m y off dt hdt happ
    rw [append_birthday, hdt] at happ
    injection happ with happ
    rw [← happ]
    refine ⟨?_, ?_, rfl⟩
    · show (b.entries.filter
            (fun e : BirthdayEntry => (e.user_id != u) || (e.guild_id != g))
          ++ ([⟨u, g, nm, dt, none, off⟩] : List BirthdayEntry)).filter
            (fun e => e.user_id == u && e.guild_id == g) = _
      rw [List.filter_append, List.filter_filter]
      have h0 : b.entries.filter
          (fun e => (e.user_id == u && e.guild_id == g)
            && ((e.user_id != u) || (e.guild_id != g))) = [] := by
        rw [List.filter_eq_nil_iff]
        intro a ha
        by_cases h1 : a.user_id = u <;> by_cases h2 : a.guild_id = g <;>
          simp [h1, h2]
      rw [h0]
      simp
    · show (b.entries.filter
            (fun e : BirthdayEntry => (e.user_id != u) || (e.guild_id != g))
          ++ ([⟨u, g, nm, dt, none, off⟩] : List BirthdayEntry)).filter
            (fun e => !(e.user_id == u && e.guild_id == g)) = _
      rw [List.filter_append, List.filter_filter]
      have h1 : b.entries.filter
          (fun e => !(e.user_id == u && e.guild_id == g)
            && ((e.user_id != u) || (e.guild_id != g)))
          = b.entries.filter (fun e => !(e.user_id == u && e.guild_id == g)) := by
        apply List.filter_congr
        intro a ha
        by_cases h1 : a.user_id = u <;> by_cases h2 : a.guild_id = g <;>
          simp [h1, h2]
      rw [h1]
      simp

/-- C5 witness: a store reached by two upserts for the same pair and one for
    another community has distinct keys, and the filter equations hold for a
    concrete replacement upsert. -/
theorem c5_one_record_per_pair_witness :
    uniqueKeys
      (BirthdayList.mk [⟨1, 6, "alice", ⟨2024, 3, 2⟩, none, 0⟩,
        ⟨1, 5, "bob", ⟨2024, 7, 1⟩, none, 2⟩] []).entries ∧
    (BirthdayList.mk [⟨1, 6, "alice", ⟨2024, 3, 2⟩, none, 0⟩,
        ⟨1, 5, "bob", ⟨2024, 7, 1⟩, none, 2⟩] []).entries.filter
      (fun e => e.user_id == 1 && e.guild_id == 5) = [⟨1, 5, "bob", ⟨2024, 7, 1⟩, none, 2⟩] := by
  constructor
  · have r1 : Reachable
        (BirthdayList.mk [⟨1, 6, "alice", ⟨2024, 3, 2⟩, none, 0⟩] []) :=
      Reachable.upsert 1 6 "alice" 2 3 none 0 Reachable.init (by decide)
    have r2 : Reachable
        (BirthdayList.mk [⟨1, 6, "alice", ⟨2024, 3, 2⟩, none, 0⟩,
          ⟨1, 5, "alice", ⟨2024, 6, 15⟩, none, 0⟩] []) :=
      Reachable.upsert 1 5 "alice" 15 6 none 0 r1 (by decide)
    have r3 : Reachable
        (BirthdayList.mk [⟨1, 6, "alice", ⟨2024, 3, 2⟩, none, 0⟩,
          ⟨1, 5, "bob", ⟨2024, 7, 1⟩, none, 2⟩] []) :=
      Reachable.upsert 1 5 "bob" 1 7 none 2 r2 (by decide)
    exact c5_one_record_per_pair.1 _ r3
  · exact (c5_one_record_per_pair.2
      (BirthdayList.mk [⟨1, 6, "alice", ⟨2024, 3, 2⟩, none, 0⟩,
        ⟨1, 5, "alice", ⟨2024, 6, 15⟩, none, 0⟩] [])
      (BirthdayList.mk [⟨1, 6, "alice", ⟨2024, 3, 2⟩, none, 0⟩,
        ⟨1, 5, "bob", ⟨2024, 7, 1⟩, none, 2⟩] [])
      1 5 "bob" 1 7 none 2 ⟨2024, 7, 1⟩ (by decide) (by decide)).1

/-- Arguments of one upsert invocation. -/
structure UpsertArgs where
  user_id : Nat
  guild_id : Nat
  name : String
  day : Nat
  month : Nat
  year : Option Nat
  utc_offset : Int
deriving DecidableEq

/-- Progress of one in-flight `append_birthday` call.  `read_from_file` and
    `write_to_file` each take `FILE_LOCK` only for their own duration, so
    the call is two separately-atomic steps with the lock free in between. -/
inductive UpsertPhase
  | ready
  | readSnapshot (snap : BirthdayList)
  | done
deriving DecidableEq

/-- One atomic step of an `append_birthday` call against the durable file:
    the locked read captures the snapshot; the locked write stores the
    locally mutated snapshot (or nothing, when `args_to_date` failed and the
    call returned early). -/
def stepUpsert (file : BirthdayList) (a : UpsertArgs) (p : UpsertPhase) :
    BirthdayList × UpsertPhase :=
  match p with
  | .ready => (file, .readSnapshot file)
  | .readSnapshot snap =>
    match append_birthday snap a.user_id a.guild_id a.name
        a.day a.month a.year a.utc_offset with
    | some newSnap => (newSnap, .done)
    | none => (file, .done)
  | .done => (file, .done)

/-- Run an interleaving: at each schedule position the named task performs
    its next atomic action against the shared durable file. -/
def runSchedule (file : BirthdayList)
    (tasks : List (UpsertArgs × UpsertPhase)) :
    List Nat → BirthdayList × List (UpsertArgs × UpsertPhase)
  | [] => (file, tasks)
  | i :: rest =>
    match tasks[i]? with
    | none => runSchedule file tasks rest
    | some (a, p) =>
      let r := stepUpsert file a p
      runSchedule r.1 (tasks.set i (a, r.2)) rest

/-- C1 counterexample: two concurrent upserts for different owners in the
    same guild, interleaved read-read-write-write, both run to completion,
    yet the durable file ends up holding only the second owner's record —
    the first upsert is lost, refuting the claimed exclusive critical
    section around the whole read-mutate-write sequence. -/
theorem c1_counterexample :
    ((runSchedule emptyList
        [(⟨1, 5, "alice", 15, 6, none, 0⟩, .ready),
         (⟨2, 5, "bob", 16, 6, none, 0⟩, .ready)] [0, 1, 0, 1]).2.map
          Prod.snd = [.done, .done]) ∧
    ((runSchedule emptyList
        [(⟨1, 5, "alice", 15, 6, none, 0⟩, .ready),
         (⟨2, 5, "bob", 16, 6, none, 0⟩, .ready)] [0, 1, 0, 1]).1.entries.any
          (fun e => e.user_id == 2) = true) ∧
    ((runSchedule emptyList
        [(⟨1, 5, "alice", 15, 6, none, 0⟩, .ready),
         (⟨2, 5, "bob", 16, 6, none, 0⟩, .ready)] [0, 1, 0, 1]).1.entries.any
          (fun e => e.user_id == 1) = false) := by
  decide

/-- C1 amended: because `append_birthday` takes the lock separately for its
    read and its write, there exists an interleaving of two concurrent
    upserts for different owners in which both calls complete and yet only
    one of the two records is present in the durable snapshot (a lost
    update). -/
theorem c1_lost_update_exists :
    ∃ sched : List Nat,
      ((runSchedule emptyList
          [(⟨1, 5, "alice", 15, 6, none, 0⟩, .ready),
           (⟨2, 5, "bob", 16, 6, none, 0⟩, .ready)] sched).2.map
            Prod.snd = [.done, .done]) ∧
      ((runSchedule emptyList
          [(⟨1, 5, "alice", 15, 6, none, 0⟩, .ready),
           (⟨2, 5, "bob", 16, 6, none, 0⟩, .ready)] sched).1.entries.any
            (fun e => e.user_id == 2) = true) ∧
      ((runSchedule emptyList
          [(⟨1, 5, "alice", 15, 6, none, 0⟩, .ready),
           (⟨2, 5, "bob", 16, 6, none, 0⟩, .ready)] sched).1.entries.any
            (fun e => e.user_id == 1) = false) :=
  ⟨[0, 1, 0, 1], by decide⟩

/-- Environment of one tick of the `check_for_announcements` loop: whether
    the file read succeeds, whether the first needed `channel.say` call
    succeeds, whether the file write succeeds, and today's UTC date. -/
structure TickEnv where
  readOk : Bool
  sayOk : Bool
  writeOk : Bool
  today : Date
deriving DecidableEq

/-- One pass of the loop body; every failure is an `unwrap`/`panic` that
    kills the task (the returned `Bool` is whether the task survived).
    A read failure panics before anything else; a failing `say` panics
    before the file write with no effect delivered; a failing write panics
    after the sends, leaving the previous durable contents. -/
def check_for_announcements_tick (file : BirthdayList) (t : TickEnv) :
    BirthdayList × List Effect × Bool :=
  if t.readOk then
    let r := sweep file t.today
    if !t.sayOk && !r.1.isEmpty then (file, [], false)
    else if !t.writeOk then (file, r.1, false)
    else (r.2, r.1, true)
  else (file, [], false)

/-- The scheduler loop: ticks are processed until a panic kills the task;
    returns the final durable file, all delivered effects, and whether the
    task is still alive. -/
def check_for_announcements_loop (file : BirthdayList) :
    List TickEnv → BirthdayList × List Effect × Bool
  | [] => (file, [], true)
  | t :: ts =>
    let r := check_for_announcements_tick file t
    if r.2.2 then
      let rest := check_for_announcements_loop r.1 ts
      (rest.1, r.2.1 ++ rest.2.1, rest.2.2)
    else (r.1, r.2.1, false)

/-- C9 counterexample: with a due record and a registered channel, a read
    failure on the first tick leaves the durable file unchanged but kills
    the loop: the second, fully healthy tick never runs and no announcement
    is ever delivered — although that same tick alone would have announced.
    The failed sweep is not retried on the next tick. -/
theorem c9_counterexample :
    check_for_announcements_loop
        ⟨[⟨1, 5, "alice", ⟨2024, 6, 15⟩, none, 0⟩], [(5, 99)]⟩
        [⟨false, true, true, ⟨2024, 6, 15⟩⟩, ⟨true, true, true, ⟨2024, 6, 15⟩⟩]
      = (⟨[⟨1, 5, "alice", ⟨2024, 6, 15⟩, none, 0⟩], [(5, 99)]⟩, [], false) ∧
    (check_for_announcements_loop
        ⟨[⟨1, 5, "alice", ⟨2024, 6, 15⟩, none, 0⟩], [(5, 99)]⟩
        [⟨true, true, true, ⟨2024, 6, 15⟩⟩]).2.1 = [⟨99, "alice"⟩] := by
  decide

/-- C9 amended: a failure at the file read, or at the announcement send when
    an effect is due, aborts the sweep before the durable write — durable
    state unchanged, nothing partially flushed and no effect delivered — but
    the panic kills the scheduler task permanently: no later tick runs, so
    the failed sweep is never retried. -/
theorem c9_failed_sweep_kills_loop (file : BirthdayList) (t : TickEnv)
    (ts : List TickEnv)
    (h : t.readOk = false ∨ (t.sayOk = false ∧ (sweep file t.today).1 ≠ [])) :
    check_for_announcements_loop file (t :: ts) = (file, [], false) := by
  have tick : check_for_announcements_tick file t = (file, [], false) := by
    rcases h with h | ⟨h1, h2⟩
    · simp [check_for_announcements_tick, h]
    · cases hr : t.readOk
      · simp [check_for_announcements_tick, hr]
      · have hne : (sweep file t.today).1.isEmpty = false := by
          cases he : (sweep file t.today).1
          · exact absurd he h2
          · rfl
        simp [check_for_announcements_tick, hr, h1, hne]
  simp [check_for_announcements_loop, tick]

/-- C9 witness: a concrete read failure on the first of two ticks. -/
theorem c9_failed_sweep_kills_loop_witness :
    check_for_announcements_loop emptyList
        [⟨false, true, true, ⟨2024, 6, 15⟩⟩, ⟨true, true, true, ⟨2024, 6, 15⟩⟩]
      = (emptyList, [], false) :=
  c9_failed_sweep_kills_loop emptyList ⟨false, true, true, ⟨2024, 6, 15⟩⟩
    [⟨true, true, true, ⟨2024, 6, 15⟩⟩] (Or.inl rfl)

end BirthdayBot
